import Mathlib

/-!
Verification of the nurse rostering model built in `src/test1.py`.

The script constructs a boolean constraint model over variables
`shifts[(dep, n, day, s)]` for 15 departments, 100 nurses, 7 days and
2 weekday / 1 weekend shift slots per day, adds the scheduling
constraints, solves, and extracts a per-department schedule.

We embed the model shallowly: an `Assignment` maps the key components
of a shift variable to its boolean value, and each block of
`model.Add(...)` calls becomes a boolean checker over assignments; the
whole model is `checkModel`.  A Python scoping detail is preserved
faithfully: the loops at lines 34-62 of `test1.py` reference the loop
variable `dep` without binding it, so it retains the last value of the
earlier `for dep in all_departments` loop, namely `14`.
-/

/-- Number of departments (`num_departments = 15`). -/
def num_departments : Nat := 15

/-- Number of nurses (`num_nurses = 100`). -/
def num_nurses : Nat := 100

/-- Number of days in the horizon (`num_days = 7`). -/
def num_days : Nat := 7

/-- Shift slots on a weekday (`num_weekday_shifts = 2`). -/
def num_weekday_shifts : Nat := 2

/-- Shift slots on a weekend day (`num_weekend_shifts = 1`). -/
def num_weekend_shifts : Nat := 1

/-- Calendar model: `2 if day in weekdays else 1` (weekdays are `range(5)`). -/
def slotsForDay (day : Nat) : Nat :=
  if day < 5 then num_weekday_shifts else num_weekend_shifts

/-- Sum of `f i` for `i` in `range(k)` (Python `sum(... for i in range(k))`). -/
def natSum : Nat → (Nat → Nat) → Nat
  | 0, _ => 0
  | k + 1, f => natSum k f + f k

/-- Conjunction of `p i` for `i` in `range(k)` (a Python loop adding one
constraint per iteration becomes the conjunction of the per-iteration
checks). -/
def natAll : Nat → (Nat → Bool) → Bool
  | 0, _ => true
  | k + 1, p => natAll k p && p k

/-- A truth assignment to the shift variables: arguments are
department, nurse, day, slot. -/
abbrev Assignment := Nat → Nat → Nat → Nat → Bool

/-- Membership test for the `shifts` dictionary: the key `(dep, n, day, s)`
was created at lines 19-26 exactly when all components are in range and
`s < slotsForDay day`. -/
def legalKey : Nat × Nat × Nat × Nat → Bool
  | (dep, n, day, s) =>
    decide (dep < num_departments) && decide (n < num_nurses) &&
      decide (day < num_days) && decide (s < slotsForDay day)

/-- The value the un-rebound loop variable `dep` holds in lines 34-62:
the last department of the preceding loop. -/
def lastDep : Nat := num_departments - 1

/-- Lines 28-32: for each department and day,
`sum(shifts[(dep, n, day, s)] for n in all_nurses for s in range(num_shifts)) == num_shifts`. -/
def coverageB (x : Assignment) : Bool :=
  natAll num_departments fun dep =>
    natAll num_days fun day =>
      decide
        (natSum num_nurses
            (fun n => natSum (slotsForDay day) fun s => (x dep n day s).toNat)
          = slotsForDay day)

/-- Lines 34-40: for each nurse and weekday, with the leaked `dep = lastDep`:
`shifts[(dep, n, day, s)] + shifts[(dep, n, day, s+1)] <= 2` for `s = 0`. -/
def adjacentB (x : Assignment) : Bool :=
  natAll num_nurses fun n =>
    natAll 5 fun day =>
      natAll num_weekday_shifts fun s =>
        if s < num_weekday_shifts - 1 then
          decide
            ((x lastDep n day s).toNat + (x lastDep n day (s + 1)).toNat ≤ 2)
        else true

/-- Lines 42-62: rest constraints, again with the leaked `dep = lastDep`.
For each nurse and day with `day < num_days - 2`, for each slot `s` whose
key is present in `shifts`, a pairwise bound against every slot of the
following two days, and (for `s = 0`) a triple bound with the same-day
successor slot.  The `legalKey` tests embed the `in shifts` guards at
lines 48, 53 and 61. -/
def restB (x : Assignment) : Bool :=
  natAll num_nurses fun n =>
    natAll num_days fun day =>
      if day < num_days - 2 then
        natAll (slotsForDay day) fun s =>
          if legalKey (lastDep, n, day, s) then
            (natAll (min (day + 3) num_days - (day + 1)) fun i =>
              natAll (slotsForDay (day + 1 + i)) fun ns =>
                if legalKey (lastDep, n, day + 1 + i, ns) then
                  decide
                    ((x lastDep n day s).toNat
                        + (x lastDep n (day + 1 + i) ns).toNat ≤ 1)
                else true)
            &&
            (if s < slotsForDay day - 1 then
              natAll (min (day + 3) num_days - (day + 1)) fun i =>
                natAll (slotsForDay (day + 1 + i)) fun ns =>
                  if legalKey (lastDep, n, day + 1 + i, ns) then
                    decide
                      ((x lastDep n day s).toNat + (x lastDep n day (s + 1)).toNat
                          + (x lastDep n (day + 1 + i) ns).toNat ≤ 2)
                  else true
            else true)
          else true
      else true

/-- The sum at line 68: a nurse's variables on one day across all
departments and that day's slots. -/
def daySum (x : Assignment) (n day : Nat) : Nat :=
  natSum num_departments fun dep =>
    natSum (slotsForDay day) fun s => (x dep n day s).toNat

/-- Lines 64-68: for each nurse and day, `daySum ≤ 1`. -/
def perDayB (x : Assignment) : Bool :=
  natAll num_nurses fun n =>
    natAll num_days fun day => decide (daySum x n day ≤ 1)

/-- The sum at line 73: a nurse's variables over both weekend days (days
5 and 6), all departments, slots `range(num_weekend_shifts)`. -/
def weekendSum (x : Assignment) (n : Nat) : Nat :=
  natSum num_departments fun dep =>
    natSum 2 fun i =>
      natSum num_weekend_shifts fun s => (x dep n (5 + i) s).toNat

/-- Lines 70-74: for each nurse, `weekendSum ≤ 1`. -/
def weekendB (x : Assignment) : Bool :=
  natAll num_nurses fun n => decide (weekendSum x n ≤ 1)

/-- Line 77: `total_shifts = num_departments * (num_weekday_shifts * 5 + num_weekend_shifts * 2)`. -/
def total_shifts : Nat :=
  num_departments * (num_weekday_shifts * 5 + num_weekend_shifts * 2)

/-- Line 78: `min_shifts_per_nurse = total_shifts // num_nurses`. -/
def min_shifts_per_nurse : Nat := total_shifts / num_nurses

/-- Line 79: one more than the minimum when the division is inexact. -/
def max_shifts_per_nurse : Nat :=
  if total_shifts % num_nurses ≠ 0 then min_shifts_per_nurse + 1
  else min_shifts_per_nurse

/-- Lines 81-86: the full list of a nurse's variables, summed. -/
def nurseTotal (x : Assignment) (n : Nat) : Nat :=
  natSum num_departments fun dep =>
    natSum num_days fun day =>
      natSum (slotsForDay day) fun s => (x dep n day s).toNat

/-- Lines 81-88: for each nurse, `min_shifts_per_nurse ≤ nurseTotal ≤ max_shifts_per_nurse`. -/
def fairnessB (x : Assignment) : Bool :=
  natAll num_nurses fun n =>
    decide (min_shifts_per_nurse ≤ nurseTotal x n) &&
      decide (nurseTotal x n ≤ max_shifts_per_nurse)

/-- The conjunction of every constraint the script adds to the model. -/
def checkModel (x : Assignment) : Bool :=
  coverageB x && adjacentB x && restB x && perDayB x && weekendB x && fairnessB x

/-- The quantity the specification's coverage rule speaks about: the
number of nurses assigned to the single cell `(dep, day, s)`.  (The code
itself never forms this per-slot sum; its coverage constraint at line 32
sums over all of the day's slots at once.) -/
def specCellCoverage (x : Assignment) (dep day s : Nat) : Nat :=
  natSum num_nurses fun n => (x dep n day s).toNat

/-- A concrete feasible roster: cell `(dep, day, s)` is covered by the
nurse at position `30*day + 2*dep + s` (weekdays) or `150 + 15*(day-5) + dep`
(weekend), modulo 100. -/
def nurseFor (dep day s : Nat) : Nat :=
  if day < 5 then (30 * day + 2 * dep + s) % 100
  else (150 + 15 * (day - 5) + dep) % 100

/-- The baseline solution: each cell is covered by exactly its designated
nurse. -/
def sol0 : Assignment := fun dep n day s => n == nurseFor dep day s

/-- A roster satisfying every emitted constraint in which nurses 0 and 1
both cover `(dep 0, day 0, slot 0)` while `(dep 0, day 0, slot 1)` is
left empty; elsewhere it agrees with `sol0`. -/
def sol1 : Assignment := fun dep n day s =>
  if dep == 0 && day == 0 then (s == 0) && (n == 0 || n == 1)
  else sol0 dep n day s

/-- A roster satisfying every emitted constraint in which nurse 0 covers
`(dep 0, day 0, slot 0)` and `(dep 0, day 1, slot 0)` — work on two
consecutive days.  It is `sol0` with nurses 0 and 30 swapped between the
cells `(0, day 1, slot 0)` and `(5, day 3, slot 0)`. -/
def sol2 : Assignment := fun dep n day s =>
  if dep == 0 && day == 1 && s == 0 then n == 0
  else if dep == 5 && day == 3 && s == 0 then n == 30
  else sol0 dep n day s

set_option maxRecDepth 100000 in
theorem sol0_model : checkModel sol0 = true := by decide

set_option maxRecDepth 100000 in
theorem sol1_model : checkModel sol1 = true := by decide

set_option maxRecDepth 100000 in
theorem sol2_model : checkModel sol2 = true := by decide

/-- Unfolding `natAll` into a pointwise statement. -/
theorem natAll_eq_true (p : Nat → Bool) (k : Nat) :
    natAll k p = true ↔ ∀ i, i < k → p i = true := by
  induction k with
  | zero => simp [natAll]
  | succ k ih =>
    simp only [natAll, Bool.and_eq_true, ih]
    constructor
    · rintro ⟨h1, h2⟩ i hi
      rcases Nat.lt_succ_iff_lt_or_eq.mp hi with h | h
      · exact h1 i h
      · exact h ▸ h2
    · intro h
      exact ⟨fun i hi => h i (Nat.lt_succ_of_lt hi), h k (Nat.lt_succ_self k)⟩

/-- Splitting a satisfied model into its six constraint families. -/
theorem checkModel_parts {x : Assignment} (h : checkModel x = true) :
    coverageB x = true ∧ adjacentB x = true ∧ restB x = true ∧
      perDayB x = true ∧ weekendB x = true ∧ fairnessB x = true := by
  simpa [checkModel, Bool.and_eq_true, and_assoc] using h

/-! ### Solution extractor (lines 95-127)

`on_solution_callback` walks every legal `(dep, day, s)` cell and, for
each nurse in increasing order, overwrites the cell with that nurse
whenever the nurse's variable is true; cells whose nurses are all false
keep their previous content.  We model the schedule as a total function
from `(dep, day, s)` to `Option Nat` and the callback as `extractStep`. -/

/-- The innermost loop of `on_solution_callback` (lines 116-118): scan
nurses `0, 1, ..., 99` in order, overwriting the accumulator whenever the
variable reads true. -/
def scanNurses (x : Assignment) (dep day s : Nat) (init : Option Nat) : Option Nat :=
  (List.range num_nurses).foldl
    (fun acc n => if x dep n day s = true then some n else acc) init

/-- The schedule built at line 108: every cell starts out unassigned. -/
def freshSchedule : Nat → Nat → Nat → Option Nat := fun _ _ _ => none

/-- One run of `on_solution_callback` over a schedule (lines 112-118):
every legal cell is rescanned, illegal cells do not exist in the
dictionary and are untouched. -/
def extractStep (x : Assignment) (sched : Nat → Nat → Nat → Option Nat) :
    Nat → Nat → Nat → Option Nat :=
  fun dep day s =>
    if dep < num_departments ∧ day < num_days ∧ s < slotsForDay day then
      scanNurses x dep day s (sched dep day s)
    else sched dep day s

/-- The overwrite scan either ends on the last satisfied nurse — in which
case the initial accumulator is irrelevant — or returns the initial
accumulator untouched. -/
theorem scanFold_char (p : Nat → Bool) (l : List Nat) (init : Option Nat) :
    l.foldl (fun acc n => if p n = true then some n else acc) init
      = (l.foldl (fun acc n => if p n = true then some n else acc) none).elim init some := by
  induction l generalizing init with
  | nil => rfl
  | cons a t ih =>
    simp only [List.foldl_cons]
    rw [ih (if p a = true then some a else init),
      ih (if p a = true then some a else none)]
    cases htf : t.foldl (fun acc n => if p n = true then some n else acc) none with
    | some j => simp
    | none => cases hpa : p a <;> simp

/-- Rescanning a cell starting from the result of a first scan changes
nothing. -/
theorem scanNurses_idem (x : Assignment) (dep day s : Nat) (init : Option Nat) :
    scanNurses x dep day s (scanNurses x dep day s init)
      = scanNurses x dep day s init := by
  unfold scanNurses
  rw [scanFold_char]
  rw [scanFold_char _ _ init]
  cases htf : (List.range num_nurses).foldl
      (fun acc n => if x dep n day s = true then some n else acc) none with
  | some j => simp
  | none => simp

/-- The nurse scan over `range(k)` starting from an unassigned cell. -/
def scanRange (p : Nat → Bool) (k : Nat) : Option Nat :=
  (List.range k).foldl (fun acc n => if p n = true then some n else acc) none

/-- Peeling the last nurse off the scan. -/
theorem scanRange_succ (p : Nat → Bool) (k : Nat) :
    scanRange p (k + 1) = if p k = true then some k else scanRange p k := by
  unfold scanRange
  rw [List.range_succ, List.foldl_append]
  rfl

/-- The scan leaves a cell unassigned exactly when no nurse in range is
satisfied. -/
theorem scanRange_eq_none_iff (p : Nat → Bool) (k : Nat) :
    scanRange p k = none ↔ ∀ n, n < k → p n = false := by
  induction k with
  | zero => simp [scanRange]
  | succ k ih =>
    rw [scanRange_succ]
    cases hp : p k with
    | true =>
      simp only [if_pos rfl]
      constructor
      · intro h
        exact absurd h (by simp)
      · intro h
        exact absurd (h k (Nat.lt_succ_self k)) (by simp [hp])
    | false =>
      simp only [Bool.false_eq_true, if_false, ih]
      constructor
      · intro h n hn
        rcases Nat.lt_succ_iff_lt_or_eq.mp hn with h2 | h2
        · exact h n h2
        · exact h2 ▸ hp
      · intro h n hn
        exact h n (Nat.lt_succ_of_lt hn)

/-- Whenever some nurse in range is satisfied, the scan records a
satisfied nurse no smaller than it: the scan keeps the largest satisfied
index because later nurses overwrite earlier ones. -/
theorem scanRange_max (p : Nat → Bool) (k : Nat) :
    ∀ m, m < k → p m = true →
      ∃ j, scanRange p k = some j ∧ m ≤ j ∧ j < k ∧ p j = true := by
  induction k with
  | zero => exact fun m hm _ => absurd hm (Nat.not_lt_zero m)
  | succ k ih =>
    intro m hm hpm
    cases hp : p k with
    | true =>
      refine ⟨k, ?_, by omega, Nat.lt_succ_self k, hp⟩
      rw [scanRange_succ, hp]
      simp
    | false =>
      have hmk : m ≠ k := fun e => absurd (e ▸ hpm) (by simp [hp])
      obtain ⟨j, hj1, hj2, hj3, hj4⟩ := ih m (by omega) hpm
      refine ⟨j, ?_, hj2, by omega, hj4⟩
      rw [scanRange_succ, hp]
      simpa using hj1

/-- The inner nurse loop starting from an unassigned cell is exactly the
range scan. -/
theorem scanNurses_none_eq (x : Assignment) (dep day s : Nat) :
    scanNurses x dep day s none = scanRange (fun n => x dep n day s) num_nurses := rfl

/-! ### The variable space (lines 19-26)

The script fills the dictionary `shifts` by the nested loops over
departments, nurses, days and the day's slots; we record the sequence of
keys those loops create. -/

/-- Keys created by the innermost loop, `for s in range(num_shifts)`. -/
def keysFor3 (dep n day : Nat) : List (Nat × Nat × Nat × Nat) :=
  (List.range (slotsForDay day)).map fun s => (dep, n, day, s)

/-- Keys created for one department and nurse, `for day in all_days`. -/
def keysFor2 (dep n : Nat) : List (Nat × Nat × Nat × Nat) :=
  (List.range num_days).flatMap fun day => keysFor3 dep n day

/-- Keys created for one department, `for n in all_nurses`. -/
def keysFor1 (dep : Nat) : List (Nat × Nat × Nat × Nat) :=
  (List.range num_nurses).flatMap fun n => keysFor2 dep n

/-- The full key sequence of the `shifts` dictionary,
`for dep in all_departments`. -/
def shiftKeys : List (Nat × Nat × Nat × Nat) :=
  (List.range num_departments).flatMap fun dep => keysFor1 dep

theorem mem_keysFor3 {x : Nat × Nat × Nat × Nat} {dep n day : Nat} :
    x ∈ keysFor3 dep n day ↔ ∃ s, s < slotsForDay day ∧ x = (dep, n, day, s) := by
  simp only [keysFor3, List.mem_map, List.mem_range]
  constructor
  · rintro ⟨s, hs, rfl⟩
    exact ⟨s, hs, rfl⟩
  · rintro ⟨s, hs, rfl⟩
    exact ⟨s, hs, rfl⟩

theorem keysFor3_day {x : Nat × Nat × Nat × Nat} {dep n day : Nat}
    (h : x ∈ keysFor3 dep n day) : x.2.2.1 = day := by
  obtain ⟨s, _, rfl⟩ := mem_keysFor3.mp h
  rfl

theorem keysFor2_nurse {x : Nat × Nat × Nat × Nat} {dep n : Nat}
    (h : x ∈ keysFor2 dep n) : x.2.1 = n := by
  obtain ⟨day, _, hx⟩ := List.mem_flatMap.mp h
  obtain ⟨s, _, rfl⟩ := mem_keysFor3.mp hx
  rfl

theorem keysFor1_dep {x : Nat × Nat × Nat × Nat} {dep : Nat}
    (h : x ∈ keysFor1 dep) : x.1 = dep := by
  obtain ⟨n, _, hx⟩ := List.mem_flatMap.mp h
  obtain ⟨day, _, hx2⟩ := List.mem_flatMap.mp hx
  obtain ⟨s, _, rfl⟩ := mem_keysFor3.mp hx2
  rfl

theorem keysFor3_nodup (dep n day : Nat) : (keysFor3 dep n day).Nodup :=
  (List.nodup_range _).map fun a b h => by
    simpa using congrArg (fun y : Nat × Nat × Nat × Nat => y.2.2.2) h

theorem keysFor2_nodup (dep n : Nat) : (keysFor2 dep n).Nodup := by
  rw [keysFor2, List.nodup_flatMap]
  refine ⟨fun day _ => keysFor3_nodup dep n day, ?_⟩
  exact (List.nodup_range _).imp fun hab x hxa hxb =>
    hab ((keysFor3_day hxa).symm.trans (keysFor3_day hxb))

theorem keysFor1_nodup (dep : Nat) : (keysFor1 dep).Nodup := by
  rw [keysFor1, List.nodup_flatMap]
  refine ⟨fun n _ => keysFor2_nodup dep n, ?_⟩
  exact (List.nodup_range _).imp fun hab x hxa hxb =>
    hab ((keysFor2_nurse hxa).symm.trans (keysFor2_nurse hxb))

theorem shiftKeys_nodup : shiftKeys.Nodup := by
  rw [shiftKeys, List.nodup_flatMap]
  refine ⟨fun dep _ => keysFor1_nodup dep, ?_⟩
  exact (List.nodup_range _).imp fun hab x hxa hxb =>
    hab ((keysFor1_dep hxa).symm.trans (keysFor1_dep hxb))

theorem mem_shiftKeys (dep n day s : Nat) :
    (dep, n, day, s) ∈ shiftKeys ↔ legalKey (dep, n, day, s) = true := by
  simp only [shiftKeys, keysFor1, keysFor2, List.mem_flatMap, List.mem_range,
    mem_keysFor3, legalKey, Bool.and_eq_true, decide_eq_true_eq]
  constructor
  · rintro ⟨d, hd, m, hm, c, hc, t, ht, h⟩
    obtain ⟨rfl, rfl, rfl, rfl⟩ := Prod.mk.injEq .. ▸ (by
      injection h with h1 h2
      injection h2 with h3 h4
      injection h4 with h5 h6
      exact ⟨h1.symm, h3.symm, h5.symm, h6.symm⟩ :
        d = dep ∧ m = n ∧ c = day ∧ t = s)
    exact ⟨⟨⟨hd, hm⟩, hc⟩, ht⟩
  · rintro ⟨⟨⟨hd, hm⟩, hc⟩, ht⟩
    exact ⟨dep, hd, n, hm, day, hc, s, ht, rfl⟩

theorem keysFor3_length (dep n day : Nat) :
    (keysFor3 dep n day).length = slotsForDay day := by
  simp [keysFor3]

theorem keysFor2_length (dep n : Nat) :
    (keysFor2 dep n).length = natSum num_days slotsForDay := by
  simp only [keysFor2, List.length_flatMap, Function.comp_def, keysFor3_length]
  decide

theorem keysFor1_length (dep : Nat) :
    (keysFor1 dep).length = num_nurses * natSum num_days slotsForDay := by
  simp only [keysFor1, List.length_flatMap, Function.comp_def, keysFor2_length]
  decide

theorem shiftKeys_length :
    shiftKeys.length = num_departments * num_nurses * natSum num_days slotsForDay := by
  simp only [shiftKeys, List.length_flatMap, Function.comp_def, keysFor1_length]
  decide

/-! ### Key-reference handling in the rest-constraint encoder (lines 43-62)

Each candidate key of a rest constraint is passed through the guard
`if (dep, n, day, s) in shifts:` (lines 48, 53, 61).  A key present in
the dictionary contributes its constraint; a key outside the legal
variable space is skipped and the loop moves on — no exception is ever
raised on that path.  We record this handling as a fallible computation
so that the absence of an error outcome is part of the statement. -/

/-- Handling of one candidate key reference by the rest-constraint
encoder: a legal key is looked up (successfully), an illegal key is
filtered out by the membership guard.  The `Except` layer records that
neither path raises. -/
def restRefHandler (k : Nat × Nat × Nat × Nat) :
    Except Unit (List (Nat × Nat × Nat × Nat)) :=
  if legalKey k = true then Except.ok [k] else Except.ok []

/-- Unfolding the boolean legality test into its four bounds. -/
theorem legalKey_iff (dep n day s : Nat) :
    legalKey (dep, n, day, s) = true ↔
      dep < num_departments ∧ n < num_nurses ∧ day < num_days ∧ s < slotsForDay day := by
  simp [legalKey, and_assoc]

/-! ### Claims -/

/-- C1: the claim says the emitted constraints force every single
`(department, day, slot)` cell to be covered by exactly one nurse.  They
do not: line 32 adds one aggregate equality per `(department, day)` —
the sum over all nurses and all of the day's slots equals the day's slot
count — so `sol1`, which staffs `(dep 0, day 0, slot 0)` with two nurses
and leaves `(dep 0, day 0, slot 1)` empty, satisfies every emitted
constraint. -/
theorem perSlotCoverage_not_forced :
    checkModel sol1 = true ∧
      specCellCoverage sol1 0 0 0 = 2 ∧ specCellCoverage sol1 0 0 1 = 0 :=
  ⟨sol1_model, by decide, by decide⟩

/-- C2: the claim says a worked slot on day `d` excludes all work on days
`d+1` and `d+2` in any department.  The rest constraints of lines 43-62
reference only the stale loop variable `dep = 14`, so `sol2`, in which
nurse 0 works `(dep 0, day 0, slot 0)` and `(dep 0, day 1, slot 0)` on
consecutive days, satisfies every emitted constraint. -/
theorem restAcrossDepartments_not_forced :
    checkModel sol2 = true ∧ sol2 0 0 0 0 = true ∧ sol2 0 0 1 0 = true :=
  ⟨sol2_model, by decide, by decide⟩

/-- C3: the bounded same-day-adjacent-slots rule of lines 34-40 is
instantiated only against the leaked department value `lastDep` (the
`adjacentB` embedding reproduces that scope leak), and the emitted bound
`x + y ≤ 2` over two boolean variables is satisfied by every assignment:
it permits but never forbids back-to-back weekday slots. -/
theorem adjacentBound_tautological : ∀ x : Assignment, adjacentB x = true := by
  intro x
  rw [adjacentB, natAll_eq_true]
  intro n _
  rw [natAll_eq_true]
  intro day _
  rw [natAll_eq_true]
  intro s _
  split
  · apply decide_eq_true
    cases x lastDep n day s <;> cases x lastDep n day (s + 1) <;> decide
  · rfl

/-- C4: the fairness band of lines 76-88 computes
`total_shifts = 15 * (2*5 + 1*2) = 180`, `min = 180 / 100 = 1`, and since
the division is inexact (`180 % 100 = 80`), `max = min + 1 = 2`; every
assignment satisfying the model keeps every nurse's total assigned sum
within `[min, max]`. -/
theorem fairnessBand_forced :
    total_shifts = 180 ∧ min_shifts_per_nurse = 1 ∧
      total_shifts % num_nurses = 80 ∧ max_shifts_per_nurse = 2 ∧
      ∀ x : Assignment, checkModel x = true → ∀ n, n < num_nurses →
        min_shifts_per_nurse ≤ nurseTotal x n ∧
          nurseTotal x n ≤ max_shifts_per_nurse := by
  refine ⟨rfl, rfl, rfl, by decide, ?_⟩
  intro x h n hn
  have hf := (checkModel_parts h).2.2.2.2.2
  rw [fairnessB, natAll_eq_true] at hf
  have hfn := hf n hn
  simp only [Bool.and_eq_true, decide_eq_true_eq] at hfn
  exact hfn

/-- Witness for C4: the concrete roster `sol0` satisfies the model and
nurse 0 lands inside the fairness band. -/
theorem fairnessBand_forced_witness :
    checkModel sol0 = true ∧ 0 < num_nurses ∧
      (min_shifts_per_nurse ≤ nurseTotal sol0 0 ∧
        nurseTotal sol0 0 ≤ max_shifts_per_nurse) :=
  ⟨sol0_model, by decide, fairnessBand_forced.2.2.2.2 sol0 sol0_model 0 (by decide)⟩

/-- C5: lines 64-68 bound, for each nurse and day, the sum of the
nurse's variables over all departments and the day's slots by 1, so in
every satisfying assignment a nurse holds at most one
`(department, slot)` pair per day. -/
theorem singleDepartmentPerDay_forced :
    ∀ x : Assignment, checkModel x = true → ∀ n, n < num_nurses →
      ∀ day, day < num_days → daySum x n day ≤ 1 := by
  intro x h n hn day hday
  have hp := (checkModel_parts h).2.2.2.1
  rw [perDayB, natAll_eq_true] at hp
  have hpn := hp n hn
  rw [natAll_eq_true] at hpn
  exact of_decide_eq_true (hpn day hday)

/-- Witness for C5 at the concrete roster `sol0`, nurse 0, day 0. -/
theorem singleDepartmentPerDay_forced_witness :
    checkModel sol0 = true ∧ 0 < num_nurses ∧ 0 < num_days ∧
      daySum sol0 0 0 ≤ 1 :=
  ⟨sol0_model, by decide, by decide,
    singleDepartmentPerDay_forced sol0 sol0_model 0 (by decide) 0 (by decide)⟩

/-- C6: lines 70-74 bound, for each nurse, the sum of the nurse's
variables over both weekend days, all departments and all weekend slots
by 1, so in every satisfying assignment each nurse works at most one of
the two weekend days. -/
theorem weekendAtMostOne_forced :
    ∀ x : Assignment, checkModel x = true → ∀ n, n < num_nurses →
      weekendSum x n ≤ 1 := by
  intro x h n hn
  have hw := (checkModel_parts h).2.2.2.2.1
  rw [weekendB, natAll_eq_true] at hw
  exact of_decide_eq_true (hw n hn)

/-- Witness for C6 at the concrete roster `sol0`, nurse 0. -/
theorem weekendAtMostOne_forced_witness :
    checkModel sol0 = true ∧ 0 < num_nurses ∧ weekendSum sol0 0 ≤ 1 :=
  ⟨sol0_model, by decide, weekendAtMostOne_forced sol0 sol0_model 0 (by decide)⟩

/-- C7: the per-day slot count is 2 on days 0-4 and 1 otherwise; the
variable-creation loops of lines 19-26 produce exactly the keys
`(dep, n, day, s)` with all components in range and `s` below the day's
slot count, each exactly once, and the key count is
`departments * nurses * (sum of slotsForDay over the week)` (= 18000). -/
theorem variableSpace_complete :
    (∀ day : Nat, slotsForDay day = if day < 5 then 2 else 1) ∧
      (∀ dep n day s : Nat, (dep, n, day, s) ∈ shiftKeys ↔
        dep < num_departments ∧ n < num_nurses ∧ day < num_days ∧
          s < slotsForDay day) ∧
      shiftKeys.Nodup ∧
      shiftKeys.length = num_departments * num_nurses * natSum num_days slotsForDay :=
  ⟨fun _ => rfl,
    fun dep n day s => (mem_shiftKeys dep n day s).trans (legalKey_iff dep n day s),
    shiftKeys_nodup, shiftKeys_length⟩

/-- C8: re-running the solution extractor on the same solution is
idempotent — the second run reproduces the schedule of the first run
exactly, from any starting schedule (in particular from the fresh one). -/
theorem extraction_idempotent :
    ∀ (x : Assignment) (sched : Nat → Nat → Nat → Option Nat),
      extractStep x (extractStep x sched) = extractStep x sched := by
  intro x sched
  funext dep day s
  by_cases h : dep < num_departments ∧ day < num_days ∧ s < slotsForDay day
  · simp [extractStep, h, scanNurses_idem]
  · simp [extractStep, h]

/-- C9, counterexample: the claim says an out-of-space key reference
fails fast with an error and is never skipped.  At the concrete illegal
key `(dep 0, nurse 0, day 5, slot 1)` (slot 1 does not exist on day 5)
the encoder's reference handling returns successfully with no constraint
— the membership guard of lines 48/53/61 skips it silently instead of
raising. -/
theorem outOfSpaceRef_skipped :
    legalKey (0, 0, 5, 1) = false ∧ restRefHandler (0, 0, 5, 1) = Except.ok [] :=
  ⟨rfl, rfl⟩

/-- C9, amended: every reference to a key outside the legal variable
space is silently skipped by the membership guard — no constraint is
emitted and no error is raised. -/
theorem outOfSpaceRef_silently_skipped :
    ∀ k : Nat × Nat × Nat × Nat, legalKey k = false →
      restRefHandler k = Except.ok [] := by
  intro k h
  simp [restRefHandler, h]

/-- Witness for the amended C9 at the illegal key
`(dep 0, nurse 0, day 6, slot 1)`. -/
theorem outOfSpaceRef_silently_skipped_witness :
    legalKey (0, 0, 6, 1) = false ∧ restRefHandler (0, 0, 6, 1) = Except.ok [] :=
  ⟨rfl, outOfSpaceRef_silently_skipped (0, 0, 6, 1) rfl⟩

/-- C10: extracting from the freshly initialized schedule leaves a legal
cell unassigned exactly when no nurse's variable is true there, and when
some nurse's variable is true the recorded nurse is a true-valued index
at least as large as any other true-valued index — the ascending nurse
scan overwrites earlier matches and never resets a cell. -/
theorem extract_none_iff_and_max (x : Assignment) (dep day s : Nat)
    (h1 : dep < num_departments) (h2 : day < num_days)
    (h3 : s < slotsForDay day) :
    (extractStep x freshSchedule dep day s = none ↔
        ∀ n, n < num_nurses → x dep n day s = false) ∧
      ∀ m, m < num_nurses → x dep m day s = true →
        ∃ j, extractStep x freshSchedule dep day s = some j ∧
          m ≤ j ∧ j < num_nurses ∧ x dep j day s = true := by
  have hstep : extractStep x freshSchedule dep day s
      = scanRange (fun n => x dep n day s) num_nurses := by
    unfold extractStep freshSchedule
    rw [if_pos ⟨h1, h2, h3⟩]
    rfl
  constructor
  · rw [hstep]
    exact scanRange_eq_none_iff _ _
  · intro m hm hpm
    rw [hstep]
    exact scanRange_max _ _ m hm hpm

/-- A tiny solution with two nurses (3 and 7) true on one cell, used to
witness the extractor characterization. -/
def solW : Assignment := fun dep n day s =>
  dep == 0 && day == 0 && s == 0 && (n == 3 || n == 7)

/-- Witness for C10 at `solW` and the cell `(0, 0, 0)`. -/
theorem extract_none_iff_and_max_witness :
    (0 < num_departments ∧ 0 < num_days ∧ 0 < slotsForDay 0) ∧
      ((extractStep solW freshSchedule 0 0 0 = none ↔
          ∀ n, n < num_nurses → solW 0 n 0 0 = false) ∧
        ∀ m, m < num_nurses → solW 0 m 0 0 = true →
          ∃ j, extractStep solW freshSchedule 0 0 0 = some j ∧
            m ≤ j ∧ j < num_nurses ∧ solW 0 j 0 0 = true) :=
  ⟨⟨by decide, by decide, by decide⟩,
    extract_none_iff_and_max solW 0 0 0 (by decide) (by decide) (by decide)⟩

